import Mathlib

/-!
Verification of the Tesla-Wrap-Studio texture-synthesis and mesh-classification
pipeline.  The definitions below are a shallow embedding of the TypeScript
source: the mesh classifier and texture binder inside `applyWrapTexture`, the
per-mesh geometry side effects, the progress-reporting model loader with its
`FileLoader` fallback, the IndexedDB pack cache (`getCachedPack` / `cachePack` /
`downloadPack`), and the asset resolver `getGltfUrl`.

Numbers that are JS doubles in the source (opacity, metalness, roughness,
progress fractions) are modelled as exact rationals; all threshold comparisons
in the source are against simple decimal constants, written here as `mkRat`
values (`mkRat 1 2 = 0.5`, `mkRat 9 10 = 0.9`, and so on).
-/

namespace WrapStudio

/-- Substring test on character lists: `sub` occurs contiguously in the list.
Models JS `String.prototype.includes`. -/
def listContainsSub (sub : List Char) : List Char → Bool
  | [] => sub.isEmpty
  | c :: cs => sub.isPrefixOf (c :: cs) || listContainsSub sub cs

/-- JS `s.includes(sub)`. -/
def strContains (s sub : String) : Bool := listContainsSub sub.data s.data

/-- The `paintMaterialNames` list from `applyWrapTexture`. -/
def paintMaterialNames : List String := ["Paint", "Exterior"]

/-- The `excludeMaterialNames` list from `applyWrapTexture`. -/
def excludeMaterialNames : List String :=
  ["Glass", "Interior", "Lights", "Leather", "Plastic", "Chrome", "Aluminum", "Rubber",
   "Carpet", "Seatbelts", "Grille", "Chargeport", "Plates", "Ground", "Mirror", "Suede",
   "Decor", "Screen", "Zero_Black", "Frunk"]

/-- The material data the classifier reads for one mesh.  `name` is the
resolved material name (the source's `materialName` after the
`material.name || userData.gltfMaterialName || index-lookup || ''` chain);
`isPBR` records whether the material is a `MeshStandardMaterial` or
`MeshPhysicalMaterial`; `metalness`/`roughness` are `none` when the JS
property is `undefined`. -/
structure Material where
  name : String
  isPBR : Bool
  transparent : Bool
  opacity : ℚ
  metalness : Option ℚ
  roughness : Option ℚ
  deriving DecidableEq

/-- Source `paintMaterialNames.some(name => materialName.includes(name))`. -/
def isPaintMaterial (name : String) : Bool :=
  paintMaterialNames.any fun n => strContains name n

/-- Source `excludeMaterialNames.some(name => materialName.includes(name))`. -/
def isExcluded (name : String) : Bool :=
  excludeMaterialNames.any fun n => strContains name n

/-- Source `(materialName.includes('ExteriorFade') || materialName.includes('PaintFade')) && !isExcluded`. -/
def isFadePaintMaterial (name : String) : Bool :=
  (strContains name "ExteriorFade" || strContains name "PaintFade") && !isExcluded name

/-- Source `materialName.includes('Glass') || (material.transparent && material.opacity < 0.5)`. -/
def isGlassMaterial (m : Material) : Bool :=
  strContains m.name "Glass" || (m.transparent && decide (m.opacity < mkRat 1 2))

/-- The numeric-property fallback for unnamed materials:
`isOpaque && hasMetalness && isNotTooRough && !isExcluded` where
`isOpaque = !transparent || opacity >= 0.9`,
`hasMetalness = metalness !== undefined && metalness > 0.3`,
`isNotTooRough = roughness !== undefined && roughness < 0.8`. -/
def unnamedHeuristic (m : Material) : Bool :=
  let isOpaque := !m.transparent || decide (mkRat 9 10 ≤ m.opacity)
  let hasMetalness := match m.metalness with
    | some v => decide (mkRat 3 10 < v)
    | none => false
  let isNotTooRough := match m.roughness with
    | some v => decide (v < mkRat 4 5)
    | none => false
  isOpaque && hasMetalness && isNotTooRough && !isExcluded m.name

/-- The per-mesh classification decision `shouldApplyWrap` of
`applyWrapTexture`: the nested if/else chain guarded by the
`MeshStandardMaterial || MeshPhysicalMaterial` instance check. -/
def shouldApplyWrap (m : Material) : Bool :=
  if m.isPBR then
    if isGlassMaterial m then false
    else if isFadePaintMaterial m.name then true
    else if isPaintMaterial m.name && !isExcluded m.name then true
    else if m.name == "" || m.name == "unnamed" then unnamedHeuristic m
    else false
  else false

/-- Source `materialName.includes('Fade')`, the binder's test for the blended-edge
variant. -/
def isFadeName (name : String) : Bool := strContains name "Fade"

/-- The replacement `MeshStandardMaterial` built for a receives-wrap mesh
(`wrapMaterial` in the source), restricted to the fields the classifier can
later read back.  A freshly constructed `MeshStandardMaterial` has the empty
name and empty `userData`, so its resolved name is `""`.  `originalMaterial`
is the source material when it is standard/physical, else `null`. -/
def mkWrapMaterial (m : Material) : Material :=
  let originalMaterial : Option Material := if m.isPBR then some m else none
  let isFade := isFadeName m.name
  { name := ""
    isPBR := true
    transparent := isFade && (match originalMaterial with
      | some o => o.transparent
      | none => false)
    opacity := match originalMaterial with
      | some o => if isFade then o.opacity else 1
      | none => 1
    metalness := some (match originalMaterial with
      | some o => o.metalness.getD (mkRat 3 5)
      | none => mkRat 3 5)
    roughness := some (match originalMaterial with
      | some o => o.roughness.getD (mkRat 2 5)
      | none => mkRat 2 5) }

/-- The render-relevant outcome of binding the wrap texture to one
receives-wrap mesh: the replacement material plus its `depthWrite` flag,
the mesh `renderOrder` (left at the three.js default `0` unless the fade
branch raises it to `100`), and the `flatShading` flag of the new material. -/
structure WrapRender where
  material : Material
  depthWrite : Bool
  renderOrder : ℕ
  flatShading : Bool
  deriving DecidableEq

/-- Construction of the replacement material and mesh flags for a
receives-wrap mesh, from the `wrapMaterial` block of `applyWrapTexture`. -/
def applyWrapToMesh (m : Material) : WrapRender :=
  let isFade := isFadeName m.name
  { material := mkWrapMaterial m
    depthWrite := if isFade then false else true
    renderOrder := if isFade then 100 else 0
    flatShading := false }

/-- Geometry state the pipeline reads and writes: whether the buffer geometry
has an index, and whether `computeVertexNormals` has run on it. -/
structure Geometry where
  hasIndex : Bool
  normalsComputed : Bool
  deriving DecidableEq

/-- three.js `BufferGeometry.toNonIndexed()`: converts an indexed geometry to
a non-indexed one; on an already non-indexed geometry it warns and returns
the receiver unchanged. -/
def toNonIndexed (g : Geometry) : Geometry :=
  if g.hasIndex then { hasIndex := false, normalsComputed := g.normalsComputed } else g

/-- The geometry side effects `applyWrapTexture` performs on a mesh in either
branch: `if (!geometry.index) geometry = geometry.toNonIndexed()` followed by
`geometry.computeVertexNormals()`. -/
def fixGeometry (g : Geometry) : Geometry :=
  let g1 := if !g.hasIndex then toNonIndexed g else g
  { hasIndex := g1.hasIndex, normalsComputed := true }

/-- Per-mesh outcome of one classify-and-bind traversal. -/
structure ProcessedMesh where
  receivesWrap : Bool
  geometry : Geometry
  flatShading : Bool
  deriving DecidableEq

/-- One mesh's trip through the `object.traverse` body of `applyWrapTexture`:
wrap meshes get the fixed geometry and a replacement material with
`flatShading: false`; retained meshes get the same geometry treatment and
`material.flatShading = false`, but only when the material is
standard/physical — other materials are left untouched. -/
def processMesh (m : Material) (g : Geometry) (flat : Bool) : ProcessedMesh :=
  if shouldApplyWrap m then
    { receivesWrap := true, geometry := fixGeometry g, flatShading := false }
  else if m.isPBR then
    { receivesWrap := false, geometry := fixGeometry g, flatShading := false }
  else
    { receivesWrap := false, geometry := g, flatShading := flat }

/-- The material left on a mesh after one classify-and-bind pass: wrap meshes
get the replacement material, all other meshes keep theirs (the retain branch
only clears `flatShading`, which the classifier never reads). -/
def passMesh (m : Material) : Material :=
  if shouldApplyWrap m then mkWrapMaterial m else m

/-! ### Scene model loader: progress reporting (`loadGLTFModel`) -/

/-- One URL attempt of the loader: the `(loaded, total)` pairs its progress
callback receives, and whether the attempt succeeds. -/
structure Attempt where
  events : List (ℕ × ℕ)
  success : Bool

/-- Source `Math.round((progress.loaded / progress.total) * 60) + 20`, the scaling of
fetch progress into the reserved sub-range.  JS `Math.round x = ⌊x + 1/2⌋`
for the non-negative values arising here, which is Mathlib's `round`. -/
def scaleProgress (loaded total : ℕ) : ℤ :=
  round ((loaded : ℚ) / (total : ℚ) * 60) + 20

/-- The progress percentages one attempt emits: scaled fetch progress for
each event with `total > 0`, then `80` (on parse success) and `100`. -/
def attemptTrace (a : Attempt) : List ℤ :=
  (a.events.filterMap fun p => if 0 < p.2 then some (scaleProgress p.1 p.2) else none)
    ++ (if a.success then [80, 100] else [])

/-- Progress emitted by a sequence of attempts, stopping after the first
success (later candidates run only when the previous ones failed). -/
def attemptsTrace : List Attempt → List ℤ
  | [] => []
  | a :: rest => attemptTrace a ++ (if a.success then [] else attemptsTrace rest)

/-- The full progress sequence of one `loadGLTFModel` call: `0` from the
effect reset, `10` and `20` from the fixed initial updates, then the
attempts (primary path and fallback candidates). -/
def loadProgressTrace (attempts : List Attempt) : List ℤ :=
  0 :: 10 :: 20 :: attemptsTrace attempts

/-! ### Scene model loader: the `useFileLoaderFallback` URL candidates -/

/-- JS `url.replace(/^\/src/, '')`: drop a leading `/src`, working on the
underlying character list. -/
def stripSrcRoot (url : String) : String :=
  if "/src".data.isPrefixOf url.data then String.mk (url.data.drop 4) else url

/-- The `urlAttempts` array of `useFileLoaderFallback`. -/
def urlAttempts (gltfUrl : String) : List String :=
  [gltfUrl, stripSrcRoot gltfUrl]

/-- Terminal state of the fallback: which URLs were attempted, whether one
succeeded, and whether the user-facing error was set and the loading state
ended. -/
structure FallbackOutcome where
  attempted : List String
  succeeded : Bool
  errorSet : Bool
  loadingEnded : Bool
  deriving DecidableEq

/-- The `tryNextUrl` recursion: try each candidate in order; a candidate that
loads and parses ends the sequence successfully, exhaustion sets the error
and ends loading. -/
def tryNextUrl (ok : String → Bool) : List String → FallbackOutcome
  | [] => { attempted := [], succeeded := false, errorSet := true, loadingEnded := true }
  | u :: rest =>
    if ok u then
      { attempted := [u], succeeded := true, errorSet := false, loadingEnded := true }
    else
      let r := tryNextUrl ok rest
      { attempted := u :: r.attempted, succeeded := r.succeeded, errorSet := r.errorSet,
        loadingEnded := r.loadingEnded }

/-- Model of `useFileLoaderFallback`, abstracted over which candidate URLs load and
parse successfully. -/
def useFileLoaderFallback (gltfUrl : String) (ok : String → Bool) : FallbackOutcome :=
  tryNextUrl ok (urlAttempts gltfUrl)

/-! ### IndexedDB pack cache (`godotCache.ts`) -/

/-- Downloaded binary payload, identified abstractly. -/
abbrev Blob := ℕ

/-- A record of the `pck-files` object store. -/
structure CacheEntry where
  version : String
  data : Blob
  deriving DecidableEq

/-- The IndexedDB environment: the store contents keyed by URL, plus which of
the fallible operations fail in this run (`openFails`: `openDB` rejects;
`getFails`: the `store.get` request fires `onerror` after a successful open;
`putFails`: the `store.put` request fires `onerror`). -/
structure IDBState where
  store : String → Option CacheEntry
  openFails : Bool
  getFails : Bool
  putFails : Bool

/-- A `fetch` response: HTTP status flag and body. -/
structure FetchResponse where
  ok : Bool
  blob : Blob
  deriving DecidableEq

/-- Model of `getCachedPack`: an `openDB` failure is caught by the `try/catch` and
yields `null`; a failing `store.get` request rejects the promise that the
function returns *without* `await`, so that rejection escapes the
`try/catch` and propagates to the caller; otherwise the entry is returned
when present with the matching version, else `null`. -/
def getCachedPack (st : IDBState) (url version : String) : Except String (Option Blob) :=
  if st.openFails then .ok none
  else if st.getFails then .error "cache read request failed"
  else match st.store url with
    | some cached => if cached.version = version then .ok (some cached.data) else .ok none
    | none => .ok none

/-- Model of `cachePack`: the put is awaited inside the `try/catch`, so both an open
failure and a put failure are swallowed and leave the store unchanged. -/
def cachePack (st : IDBState) (url version : String) (data : Blob) : IDBState :=
  if st.openFails || st.putFails then st
  else { st with store := fun u =>
          if u = url then some { version := version, data := data } else st.store u }

/-- Model of `downloadPack`: return the cached blob on a hit; otherwise `fetch` the
URL (`net url = none` models a rejected fetch), throw on a non-OK response,
and return the body while caching it in the background (the `cachePack`
promise is not awaited and its rejection is consumed by `.catch`). -/
def downloadPack (st : IDBState) (net : String → Option FetchResponse)
    (url version : String) : Except String (Blob × IDBState) :=
  match getCachedPack st url version with
  | .error e => .error e
  | .ok (some cached) => .ok (cached, st)
  | .ok none =>
    match net url with
    | none => .error "fetch rejected"
    | some response =>
      if !response.ok then .error "Failed to download pack"
      else .ok (response.blob, cachePack st url version response.blob)

/-- Whether a `downloadPack` run resolved (`true`) or rejected (`false`). -/
def resolves : Except String (Blob × IDBState) → Bool
  | .ok _ => true
  | .error _ => false

/-! ### Asset resolver (`getGltfUrl` in `assets.ts`) -/

/-- Source `fallbackNames` from `getGltfUrl`. -/
def gltfFallbackNames : List String := ["ModelY_High.gltf", "vehicle.gltf", "model.gltf"]

/-- The glob-table loop of `getGltfUrl`: entries are `(globPath, module)`
pairs, `module = none` when the glob value is not a string (that entry is
skipped with a warning). -/
def globLookup (folderName : String) : List (String × Option String) → Option String
  | [] => none
  | (globPath, m) :: rest =>
    if strContains globPath ("/" ++ folderName ++ "/3D/") then
      match m with
      | some url => some url
      | none => globLookup folderName rest
    else globLookup folderName rest

/-- The `for (const filename of fallbackNames)` loop, which returns the
constructed path for the *first* candidate unconditionally. -/
def fallbackPathLoop (folderName : String) : List String → Option String
  | [] => none
  | filename :: _ => some ("/src/assets/wraps/" ++ folderName ++ "/3D/" ++ filename)

/-- Model of `getGltfUrl`: glob lookup, then the manual fallback loop, then the final
`return null`. -/
def getGltfUrl (modules : List (String × Option String)) (folderName : String) :
    Option String :=
  match globLookup folderName modules with
  | some url => some url
  | none =>
    match fallbackPathLoop folderName gltfFallbackNames with
    | some path => some path
    | none => none

/-! ### Shared helper lemmas -/

/-- A name that matches no exclusion token in particular does not contain
`"Glass"`, the first token of the exclusion list. -/
theorem strContains_glass_of_not_excluded {name : String}
    (h : isExcluded name = false) : strContains name "Glass" = false := by
  unfold isExcluded excludeMaterialNames at h
  simp only [List.any_cons, Bool.or_eq_false_iff] at h
  exact h.1

/-- Lemma: `isFadePaintMaterial` forces the exclusion test to be negative. -/
theorem not_excluded_of_fadePaint {name : String}
    (h : isFadePaintMaterial name = true) : isExcluded name = false := by
  unfold isFadePaintMaterial at h
  simp only [Bool.and_eq_true, Bool.not_eq_true'] at h
  exact h.2

/-- C9.  A mesh whose material is not a standard/physical PBR material is
never classified receives-wrap: the wrap decision can only become `true`
inside the branch guarded by the material-type instance check. -/
theorem nonPBR_retainsOriginal (m : Material) (h : m.isPBR = false) :
    shouldApplyWrap m = false := by
  unfold shouldApplyWrap
  rw [h]
  simp

/-- Witness for C9: a non-PBR material named like fade paint is still
classified retain-original. -/
theorem nonPBR_retainsOriginal_witness :
    (Material.mk "PaintFade" false false 1 (some 1) (some 0)).isPBR = false ∧
      shouldApplyWrap (Material.mk "PaintFade" false false 1 (some 1) (some 0)) = false :=
  ⟨rfl, nonPBR_retainsOriginal _ rfl⟩

/-- C1 counterexample.  The claim "classification yields receives-wrap even
when the material's transparency flag is true, for every opacity value" is
false: a standard material named `"ExteriorFade"` (no exclusion token) that
is transparent with opacity `0.4` trips the `transparent && opacity < 0.5`
glass test, which runs first, and is classified retain-original. -/
theorem fadePaint_claim_cex :
    isFadePaintMaterial "ExteriorFade" = true ∧
      (Material.mk "ExteriorFade" true true (mkRat 2 5) (some 1) (some 0)).transparent = true ∧
      shouldApplyWrap (Material.mk "ExteriorFade" true true (mkRat 2 5) (some 1) (some 0)) =
        false := by
  refine ⟨by decide, rfl, by decide⟩

/-- C1, amended.  For a standard/physical material whose resolved name
contains `"ExteriorFade"` or `"PaintFade"` and no exclusion token,
classification yields receives-wrap even when the transparency flag is true,
provided the material does not also satisfy the glass test — that is,
provided it is not transparent with opacity below `0.5`. -/
theorem fadePaint_receivesWrap_amended (m : Material) (hp : m.isPBR = true)
    (hf : isFadePaintMaterial m.name = true)
    (ho : m.transparent = false ∨ mkRat 1 2 ≤ m.opacity) :
    shouldApplyWrap m = true := by
  have hex : isExcluded m.name = false := not_excluded_of_fadePaint hf
  have hg : strContains m.name "Glass" = false := strContains_glass_of_not_excluded hex
  have hglass : isGlassMaterial m = false := by
    unfold isGlassMaterial
    rw [hg]
    rcases ho with h | h
    · rw [h]; simp
    · have : decide (m.opacity < mkRat 1 2) = false := by
        simp only [decide_eq_false_iff_not]
        exact not_lt.mpr h
      rw [this]; simp
  unfold shouldApplyWrap
  rw [hp, hglass, hf]
  simp

/-- Witness for C1 (amended): a transparent `"PaintFade"` material with
opacity `1` receives the wrap. -/
theorem fadePaint_receivesWrap_witness :
    ((Material.mk "PaintFade" true true 1 (some 1) (some 0)).isPBR = true ∧
        isFadePaintMaterial "PaintFade" = true ∧
        ((Material.mk "PaintFade" true true 1 (some 1) (some 0)).transparent = false ∨
          mkRat 1 2 ≤ (Material.mk "PaintFade" true true 1 (some 1) (some 0)).opacity)) ∧
      shouldApplyWrap (Material.mk "PaintFade" true true 1 (some 1) (some 0)) = true :=
  ⟨⟨rfl, by decide, Or.inr (by decide)⟩,
    fadePaint_receivesWrap_amended _ rfl (by decide) (Or.inr (by decide))⟩

/-- C2.  For a standard/physical material (the only kind carrying
`metalness`/`roughness`, per C9) whose resolved name is empty or literally
`"unnamed"`, classification yields receives-wrap iff
(not transparent, or opacity ≥ 0.9) and metalness > 0.3 and roughness < 0.8.
The early glass test `transparent && opacity < 0.5` cannot disturb the
equivalence: whenever it fires, the opacity clause already fails. -/
theorem unnamedMaterial_wrap_iff (m : Material) (hp : m.isPBR = true)
    (hn : m.name = "" ∨ m.name = "unnamed") (mv rv : ℚ)
    (hm : m.metalness = some mv) (hr : m.roughness = some rv) :
    (shouldApplyWrap m = true ↔
      ((m.transparent = false ∨ mkRat 9 10 ≤ m.opacity) ∧
        mkRat 3 10 < mv ∧ rv < mkRat 4 5)) := by
  have hfacts : isFadePaintMaterial m.name = false ∧
      (isPaintMaterial m.name && !isExcluded m.name) = false ∧
      (m.name == "" || m.name == "unnamed") = true ∧
      strContains m.name "Glass" = false ∧ isExcluded m.name = false := by
    rcases hn with h | h <;> rw [h] <;>
      exact ⟨by decide, by decide, by decide, by decide, by decide⟩
  obtain ⟨hfade, hpaint, heq, hglass, hexcl⟩ := hfacts
  unfold shouldApplyWrap isGlassMaterial unnamedHeuristic
  rw [hp, hm, hr, hfade, hpaint, heq, hglass, hexcl]
  rcases Bool.dichotomy m.transparent with ht | ht <;> rw [ht] <;>
    by_cases h05 : m.opacity < mkRat 1 2 <;>
      by_cases h09 : mkRat 9 10 ≤ m.opacity <;>
        by_cases hmv : mkRat 3 10 < mv <;>
          by_cases hrv : rv < mkRat 4 5 <;>
            first
              | exact absurd (h09.trans_lt h05) (by decide)
              | simp [h05, h09, hmv, hrv]

/-- Witness for C2: an opaque unnamed material with metalness `0.6` and
roughness `0.4` receives the wrap. -/
theorem unnamedMaterial_wrap_iff_witness :
    ((Material.mk "" true false 1 (some (mkRat 3 5)) (some (mkRat 2 5))).isPBR = true ∧
        ((Material.mk "" true false 1 (some (mkRat 3 5)) (some (mkRat 2 5))).name = "" ∨
          (Material.mk "" true false 1 (some (mkRat 3 5)) (some (mkRat 2 5))).name = "unnamed")) ∧
      shouldApplyWrap (Material.mk "" true false 1 (some (mkRat 3 5)) (some (mkRat 2 5))) = true :=
  ⟨⟨rfl, Or.inl rfl⟩,
    (unnamedMaterial_wrap_iff _ rfl (Or.inl rfl) (mkRat 3 5) (mkRat 2 5) rfl rfl).mpr
      ⟨Or.inl rfl, by decide, by decide⟩⟩

/-- Only the PBR branch can classify a mesh receives-wrap. -/
theorem shouldApplyWrap_pbr {m : Material} (h : shouldApplyWrap m = true) :
    m.isPBR = true := by
  rcases Bool.dichotomy m.isPBR with hb | hb
  · unfold shouldApplyWrap at h
    rw [hb] at h
    simp at h
  · exact hb

/-- C3 counterexample.  The claim that depth-write is enabled *only* for fade
meshes is false: the replacement material of a plain `"Paint"` mesh — not a
fade variant — has `depthWrite = true` (the code *disables* depth-write
exactly on the fade branch). -/
theorem fadeBinding_claim_cex :
    shouldApplyWrap (Material.mk "Paint" true false 1 (some (mkRat 3 5)) (some (mkRat 2 5))) =
        true ∧
      isFadeName "Paint" = false ∧
      (applyWrapToMesh
          (Material.mk "Paint" true false 1 (some (mkRat 3 5)) (some (mkRat 2 5)))).depthWrite =
        true :=
  ⟨by decide, by decide, by decide⟩

/-- C3, amended.  In the replacement material of a receives-wrap mesh, the
transparency flag can be enabled only when the resolved name contains the
fade marker; depth-write is *disabled* exactly for fade meshes (enabled for
all others); and every fade mesh gets the elevated draw order `100`. -/
theorem fadeBinding_amended (m : Material) (_hw : shouldApplyWrap m = true) :
    ((applyWrapToMesh m).material.transparent = true → isFadeName m.name = true) ∧
      (applyWrapToMesh m).depthWrite = !isFadeName m.name ∧
      (isFadeName m.name = true → (applyWrapToMesh m).renderOrder = 100) := by
  rcases Bool.dichotomy (isFadeName m.name) with hf | hf <;>
    simp [applyWrapToMesh, mkWrapMaterial, hf]

/-- Witness for C3 (amended): a transparent `"PaintFade"` mesh keeps its
transparency, gets depth-write disabled and draw order `100`. -/
theorem fadeBinding_amended_witness :
    shouldApplyWrap (Material.mk "PaintFade" true true 1 (some 1) (some 0)) = true ∧
      (((applyWrapToMesh (Material.mk "PaintFade" true true 1 (some 1) (some 0))).material.transparent =
            true →
          isFadeName "PaintFade" = true) ∧
        (applyWrapToMesh (Material.mk "PaintFade" true true 1 (some 1) (some 0))).depthWrite =
          !isFadeName "PaintFade" ∧
        (isFadeName "PaintFade" = true →
          (applyWrapToMesh (Material.mk "PaintFade" true true 1 (some 1) (some 0))).renderOrder =
            100)) :=
  ⟨by decide, fadeBinding_amended _ (by decide)⟩

/-- C4 counterexample.  The claim that *every* mesh gets its geometry
indexed, its normals recomputed and flat shading disabled is false: a mesh
whose material is not standard/physical (here a basic `"Chrome_Trim"`
material) is left entirely untouched by the traversal, and even on processed
meshes a non-indexed geometry stays non-indexed. -/
theorem meshSideEffects_claim_cex :
    processMesh (Material.mk "Chrome_Trim" false false 1 none none)
        (Geometry.mk false false) true =
      ProcessedMesh.mk false (Geometry.mk false false) true := by decide

/-- The geometry side effects never change whether the geometry is indexed:
`toNonIndexed` is only invoked when the geometry is already non-indexed,
where it is the identity. -/
theorem fixGeometry_hasIndex (g : Geometry) : (fixGeometry g).hasIndex = g.hasIndex := by
  unfold fixGeometry toNonIndexed
  rcases Bool.dichotomy g.hasIndex with h | h <;> simp [h]

/-- The geometry side effects always end with `computeVertexNormals`. -/
theorem fixGeometry_normals (g : Geometry) : (fixGeometry g).normalsComputed = true := rfl

/-- C4, amended.  Every mesh whose material is standard/physical — whether
receives-wrap or retain-original — gets its vertex normals recomputed and
flat shading disabled; the indexing step never changes whether the geometry
is indexed (the `toNonIndexed` call is guarded to run only when the geometry
is already non-indexed, where it is a no-op); meshes with any other material
kind are left entirely unchanged by the retain branch. -/
theorem meshSideEffects_amended (m : Material) (g : Geometry) (flat : Bool) :
    (processMesh m g flat).geometry.hasIndex = g.hasIndex ∧
      (m.isPBR = true →
        (processMesh m g flat).geometry.normalsComputed = true ∧
          (processMesh m g flat).flatShading = false) ∧
      (m.isPBR = false → processMesh m g flat = ProcessedMesh.mk false g flat) := by
  unfold processMesh
  rcases Bool.dichotomy (shouldApplyWrap m) with hw | hw <;> rw [hw]
  · rcases Bool.dichotomy m.isPBR with hb | hb <;>
      simp [hb, fixGeometry_hasIndex, fixGeometry_normals]
  · have hb := shouldApplyWrap_pbr hw
    simp [hb, fixGeometry_hasIndex, fixGeometry_normals]

/-- Witness for C4 (amended): a PBR `"Paint"` mesh with indexed geometry gets
recomputed normals and smooth shading. -/
theorem meshSideEffects_amended_witness :
    (Material.mk "Paint" true false 1 (some 1) (some 0)).isPBR = true ∧
      ((processMesh (Material.mk "Paint" true false 1 (some 1) (some 0))
              (Geometry.mk true false) true).geometry.normalsComputed = true ∧
        (processMesh (Material.mk "Paint" true false 1 (some 1) (some 0))
              (Geometry.mk true false) true).flatShading = false) :=
  ⟨rfl, (meshSideEffects_amended _ _ _).2.1 rfl⟩

/-- C5 counterexample.  The classify-and-bind pass is not idempotent: a mesh
whose material is named `"Paint"` with low metalness is classified
receives-wrap by name on the first pass, but its replacement material has an
empty name and inherits the low metalness, so the second pass — forced into
the unnamed-material numeric heuristic — classifies it retain-original. -/
theorem classifyIdempotent_claim_cex :
    shouldApplyWrap (Material.mk "Paint" true false 1 (some 0) (some (mkRat 1 2))) = true ∧
      shouldApplyWrap (passMesh (Material.mk "Paint" true false 1 (some 0) (some (mkRat 1 2)))) =
        false :=
  ⟨by decide, by decide⟩

/-- On a material whose resolved name is empty and which is standard (as every
replacement wrap material is), classification reduces to the unnamed-material
numeric heuristic. -/
theorem wrap_eq_heuristic_of_unnamed (w : Material) (h1 : w.name = "")
    (h2 : w.isPBR = true) : shouldApplyWrap w = unnamedHeuristic w := by
  unfold shouldApplyWrap isGlassMaterial unnamedHeuristic
  rw [h1, h2]
  rcases Bool.dichotomy w.transparent with ht | ht <;> rw [ht]
  · simp +decide
  · by_cases h05 : w.opacity < mkRat 1 2
    · have h09 : ¬ (mkRat 9 10 ≤ w.opacity) := fun hx => absurd (hx.trans_lt h05) (by decide)
      simp +decide [h05, h09]
    · simp +decide [h05]

/-- C5, amended.  A second classify-and-bind pass preserves every
retain-original classification, but re-classifies each first-pass wrap mesh
through the unnamed-material numeric heuristic applied to its replacement
material (whose resolved name is empty): the receives-wrap set is preserved
exactly when every replacement material passes that heuristic. -/
theorem classifySecondPass_amended (m : Material) :
    (shouldApplyWrap m = false → shouldApplyWrap (passMesh m) = false) ∧
      (shouldApplyWrap m = true →
        shouldApplyWrap (passMesh m) = unnamedHeuristic (mkWrapMaterial m)) := by
  constructor
  · intro h
    unfold passMesh
    rw [h]
    simpa using h
  · intro h
    unfold passMesh
    rw [h]
    simp only [if_true]
    exact wrap_eq_heuristic_of_unnamed _ rfl rfl

/-- Witness for C5 (amended): a retain-original `"Window_Glass"` mesh is
still retain-original on the second pass. -/
theorem classifySecondPass_amended_witness :
    shouldApplyWrap (Material.mk "Window_Glass" true false 1 (some 1) (some 0)) = false ∧
      shouldApplyWrap (passMesh (Material.mk "Window_Glass" true false 1 (some 1) (some 0))) =
        false :=
  ⟨by decide, (classifySecondPass_amended _).1 (by decide)⟩

/-- C7.  The fallback tries exactly two URL candidates in order — the
original URL, then the URL with the leading `/src` prefix stripped.  The
first success ends the sequence; only when both candidates fail does it set
the user-facing error and end the loading state, with no further attempt. -/
theorem fallbackCandidates_thm (url : String) (ok : String → Bool) :
    urlAttempts url = [url, stripSrcRoot url] ∧
      (ok url = true →
        useFileLoaderFallback url ok = FallbackOutcome.mk [url] true false true) ∧
      (ok url = false → ok (stripSrcRoot url) = true →
        useFileLoaderFallback url ok =
          FallbackOutcome.mk [url, stripSrcRoot url] true false true) ∧
      (ok url = false → ok (stripSrcRoot url) = false →
        useFileLoaderFallback url ok =
          FallbackOutcome.mk [url, stripSrcRoot url] false true true) := by
  refine ⟨rfl, fun h1 => ?_, fun h1 h2 => ?_, fun h1 h2 => ?_⟩
  · simp [useFileLoaderFallback, urlAttempts, tryNextUrl, h1]
  · simp [useFileLoaderFallback, urlAttempts, tryNextUrl, h1, h2]
  · simp [useFileLoaderFallback, urlAttempts, tryNextUrl, h1, h2]

/-- Witness for C7: with a dev-server-like oracle that only serves the
stripped URL, the fallback attempts both candidates and succeeds on the
second. -/
theorem fallbackCandidates_witness :
    (fun u => u == "/x.gltf") "/src/x.gltf" = false ∧
      (fun u => u == "/x.gltf") (stripSrcRoot "/src/x.gltf") = true ∧
      useFileLoaderFallback "/src/x.gltf" (fun u => u == "/x.gltf") =
        FallbackOutcome.mk ["/src/x.gltf", stripSrcRoot "/src/x.gltf"] true false true :=
  ⟨by decide, by decide,
    (fallbackCandidates_thm "/src/x.gltf" (fun u => u == "/x.gltf")).2.2.1
      (by decide) (by decide)⟩

/-- C10.  When the glob table yields no usable entry for the folder,
`getGltfUrl` returns the first manually constructed fallback path — the
`ModelY_High.gltf` candidate under the `/src` virtual path — rather than
`null`; in fact `getGltfUrl` never returns `null` at all, so the loader's
asset-not-found branch is unreachable through this resolver. -/
theorem getGltfUrl_fallback_thm (modules : List (String × Option String))
    (folderName : String) :
    (globLookup folderName modules = none →
      getGltfUrl modules folderName =
        some ("/src/assets/wraps/" ++ folderName ++ "/3D/" ++ "ModelY_High.gltf")) ∧
      getGltfUrl modules folderName ≠ none := by
  constructor
  · intro h
    unfold getGltfUrl
    rw [h]
    rfl
  · intro hc
    unfold getGltfUrl at hc
    rcases hg : globLookup folderName modules with _ | u <;> rw [hg] at hc
    · simp [fallbackPathLoop, gltfFallbackNames] at hc
    · simp at hc

/-- Witness for C10: with an empty glob table, the resolver produces the
`ModelY_High.gltf` fallback path. -/
theorem getGltfUrl_fallback_witness :
    globLookup "Tesla" ([] : List (String × Option String)) = none ∧
      getGltfUrl [] "Tesla" =
        some ("/src/assets/wraps/" ++ "Tesla" ++ "/3D/" ++ "ModelY_High.gltf") :=
  ⟨rfl, (getGltfUrl_fallback_thm [] "Tesla").1 rfl⟩

/-- Cache environment for the C8 counterexample: the entry for `"u"` is
present with the requested version, the database opens, but the `store.get`
request errors. -/
def cexIDB : IDBState :=
  { store := fun u => if u = "u" then some (CacheEntry.mk "v1" 7) else none
    openFails := false
    getFails := true
    putFails := false }

/-- Network for the C8 counterexample: every fetch resolves OK. -/
def cexNet : String → Option FetchResponse := fun _ => some (FetchResponse.mk true 9)

/-- C8 counterexample.  The claim that `downloadPack` returns the cached
bytes whenever a same-version entry exists, and throws only on a non-OK
fetch response, is false: when the `store.get` request errors, the rejection
escapes `getCachedPack`'s `try/catch` (its promise is returned without
`await`), so `downloadPack` rejects even though the matching entry exists
and the network would answer OK. -/
theorem downloadPack_claim_cex :
    cexIDB.store "u" = some (CacheEntry.mk "v1" 7) ∧
      cexNet "u" = some (FetchResponse.mk true 9) ∧
      resolves (downloadPack cexIDB cexNet "u" "v1") = false :=
  ⟨rfl, rfl, rfl⟩

/-- C8, amended.  When the cache read does not error, `downloadPack` returns
the cached bytes on a same-version hit; on a miss (absent entry, version
mismatch, or an `openDB` failure swallowed into a miss) it fetches and
returns the network bytes when the response is OK, caching them
best-effort; a cache-write failure never changes the resolved value; and
`downloadPack` rejects exactly when the `store.get` request errors after a
successful open, the fetch itself rejects, or the fetch response is not OK
on the miss path. -/
theorem downloadPack_amended (st : IDBState) (net : String → Option FetchResponse)
    (url version : String) :
    (st.openFails = false → st.getFails = false → ∀ e, st.store url = some e →
      e.version = version → downloadPack st net url version = .ok (e.data, st)) ∧
      (getCachedPack st url version = .ok none → ∀ r, net url = some r → r.ok = true →
        downloadPack st net url version = .ok (r.blob, cachePack st url version r.blob)) ∧
      (Except.map Prod.fst (downloadPack { st with putFails := true } net url version) =
        Except.map Prod.fst (downloadPack { st with putFails := false } net url version)) ∧
      (resolves (downloadPack st net url version) = false ↔
        ((st.openFails = false ∧ st.getFails = true) ∨
          (getCachedPack st url version = .ok none ∧
            (net url = none ∨ ∃ r, net url = some r ∧ r.ok = false)))) := by
  refine ⟨fun h1 h2 e he hv => ?_, fun h r hn hok => ?_, ?_, ?_⟩
  · have hg : getCachedPack st url version = .ok (some e.data) := by
      unfold getCachedPack
      rw [h1, h2, he]
      simp [hv]
    simp [downloadPack, hg]
  · simp [downloadPack, h, hn, hok]
  · have key : ∀ b : Bool,
        Except.map Prod.fst (downloadPack { st with putFails := b } net url version) =
          (match getCachedPack st url version with
            | .error e => .error e
            | .ok (some cached) => .ok cached
            | .ok none =>
              match net url with
              | none => .error "fetch rejected"
              | some r =>
                if !r.ok then .error "Failed to download pack" else .ok r.blob) := by
      intro b
      unfold downloadPack
      have hg : getCachedPack { st with putFails := b } url version =
          getCachedPack st url version := rfl
      rw [hg]
      rcases getCachedPack st url version with e | ob
      · rfl
      · rcases ob with _ | cached
        · rcases net url with _ | r
          · rfl
          · rcases Bool.dichotomy r.ok with h | h <;> simp [h, Except.map]
        · rfl
    rw [key, key]
  · unfold downloadPack getCachedPack resolves
    rcases Bool.dichotomy st.openFails with h1 | h1 <;> rw [h1] <;>
      rcases Bool.dichotomy st.getFails with h2 | h2 <;> rw [h2] <;>
        simp only [Bool.false_eq_true, Bool.true_eq_false, if_true, if_false,
          Bool.and_self, and_true, and_false, true_and, false_and, false_or, or_false]
    · rcases hst : st.store url with _ | e
      · rcases hn : net url with _ | r
        · simp
        · rcases Bool.dichotomy r.ok with h | h <;> simp [h]
      · by_cases hv : e.version = version
        · simp [hv]
        · rcases hn : net url with _ | r
          · simp [hv]
          · rcases Bool.dichotomy r.ok with h | h <;> simp [hv, h]
    · simp
    · rcases hn : net url with _ | r
      · simp
      · rcases Bool.dichotomy r.ok with h | h <;> simp [h]
    · rcases hn : net url with _ | r
      · simp
      · rcases Bool.dichotomy r.ok with h | h <;> simp [h]

/-- Witness for C8 (amended): on an empty, healthy cache and an OK network
response, `downloadPack` resolves with the fetched bytes and the cached
state. -/
theorem downloadPack_amended_witness :
    getCachedPack (IDBState.mk (fun _ => none) false false false) "u" "v1" = .ok none ∧
      (fun _ : String => some (FetchResponse.mk true 5)) "u" = some (FetchResponse.mk true 5) ∧
      (FetchResponse.mk true 5).ok = true ∧
      downloadPack (IDBState.mk (fun _ => none) false false false)
          (fun _ => some (FetchResponse.mk true 5)) "u" "v1" =
        .ok (5, cachePack (IDBState.mk (fun _ => none) false false false) "u" "v1" 5) :=
  ⟨rfl, rfl, rfl,
    (downloadPack_amended (IDBState.mk (fun _ => none) false false false)
        (fun _ => some (FetchResponse.mk true 5)) "u" "v1").2.1 rfl _ rfl rfl⟩

/-- A scaled progress value always lands in `[20, 80]` when the reported
`loaded` does not exceed `total`. -/
theorem scaleProgress_bounds {l t : ℕ} (hlt : l ≤ t) (ht : 0 < t) :
    20 ≤ scaleProgress l t ∧ scaleProgress l t ≤ 80 := by
  unfold scaleProgress
  have ht' : (0 : ℚ) < (t : ℚ) := by exact_mod_cast ht
  have h0 : (0 : ℚ) ≤ (l : ℚ) / (t : ℚ) * 60 := by positivity
  have h1 : (l : ℚ) / (t : ℚ) ≤ 1 := by
    rw [div_le_one ht']
    exact_mod_cast hlt
  have h60 : (l : ℚ) / (t : ℚ) * 60 ≤ 60 := by nlinarith
  constructor
  · have : (0 : ℤ) ≤ round ((l : ℚ) / (t : ℚ) * 60) := by
      rw [round_eq]
      exact Int.floor_nonneg.mpr (by linarith)
    linarith
  · have : round ((l : ℚ) / (t : ℚ) * 60) ≤ 60 := by
      rw [round_eq]
      have : ((l : ℚ) / (t : ℚ) * 60 + 1 / 2) < ((61 : ℤ) : ℚ) := by push_cast; linarith
      exact Int.lt_add_one_iff.mp (Int.floor_lt.mpr this)
    linarith

/-- Scaled progress is monotone in `loaded` for a fixed positive `total`. -/
theorem scaleProgress_mono {l1 l2 t : ℕ} (h : l1 ≤ l2) :
    scaleProgress l1 t ≤ scaleProgress l2 t := by
  unfold scaleProgress
  have hq : (l1 : ℚ) / (t : ℚ) * 60 ≤ (l2 : ℚ) / (t : ℚ) * 60 := by
    rcases Nat.eq_zero_or_pos t with ht | ht
    · simp [ht]
    · have ht' : (0 : ℚ) < (t : ℚ) := by exact_mod_cast ht
      have hl : (l1 : ℚ) ≤ (l2 : ℚ) := by exact_mod_cast h
      gcongr
  rw [round_eq, round_eq]
  have := Int.floor_le_floor (α := ℚ) (by linarith :
    (l1 : ℚ) / (t : ℚ) * 60 + 1 / 2 ≤ (l2 : ℚ) / (t : ℚ) * 60 + 1 / 2)
  linarith

/-- The values an attempt's scaled-progress prefix can contain. -/
theorem scaled_mem_bounds (a : Attempt) (h : ∀ p ∈ a.events, p.1 ≤ p.2) :
    ∀ v ∈ a.events.filterMap
        (fun p => if 0 < p.2 then some (scaleProgress p.1 p.2) else none),
      20 ≤ v ∧ v ≤ 80 := by
  intro v hv
  rw [List.mem_filterMap] at hv
  obtain ⟨p, hp, hf⟩ := hv
  by_cases hpos : 0 < p.2
  · rw [if_pos hpos] at hf
    obtain rfl : scaleProgress p.1 p.2 = v := Option.some.inj hf
    exact scaleProgress_bounds (h p hp) hpos
  · rw [if_neg hpos] at hf
    cases hf

/-- Every value one attempt emits lies in `[20, 100]`. -/
theorem attemptTrace_bounds (a : Attempt) (h : ∀ p ∈ a.events, p.1 ≤ p.2) :
    ∀ v ∈ attemptTrace a, 20 ≤ v ∧ v ≤ 100 := by
  intro v hv
  unfold attemptTrace at hv
  rw [List.mem_append] at hv
  rcases hv with hv | hv
  · have := scaled_mem_bounds a h v hv
    exact ⟨this.1, by linarith [this.2]⟩
  · rcases Bool.dichotomy a.success with hs | hs <;> rw [hs] at hv
    · simp at hv
    · rcases List.mem_cons.mp hv with rfl | hv
      · norm_num
      · rcases List.mem_cons.mp hv with rfl | hv
        · norm_num
        · simp at hv

/-- Every value the attempt sequence emits lies in `[20, 100]`. -/
theorem attemptsTrace_bounds (attempts : List Attempt)
    (h : ∀ a ∈ attempts, ∀ p ∈ a.events, p.1 ≤ p.2) :
    ∀ v ∈ attemptsTrace attempts, 20 ≤ v ∧ v ≤ 100 := by
  induction attempts with
  | nil => intro v hv; simp [attemptsTrace] at hv
  | cons a rest ih =>
    intro v hv
    unfold attemptsTrace at hv
    rw [List.mem_append] at hv
    rcases hv with hv | hv
    · exact attemptTrace_bounds a (h a (List.mem_cons_self a rest)) v hv
    · rcases Bool.dichotomy a.success with hs | hs <;> rw [hs] at hv
      · exact ih (fun a' ha' => h a' (List.mem_cons_of_mem _ ha')) v hv
      · simp at hv

/-- Within one attempt whose progress events have non-decreasing `loaded`
and a constant `total`, the emitted percentages are non-decreasing. -/
theorem attemptTrace_pairwise (a : Attempt) (h : ∀ p ∈ a.events, p.1 ≤ p.2)
    (hc : List.Pairwise (fun p q : ℕ × ℕ => p.1 ≤ q.1 ∧ p.2 = q.2) a.events) :
    List.Pairwise (· ≤ ·) (attemptTrace a) := by
  unfold attemptTrace
  rw [List.pairwise_append]
  refine ⟨?_, ?_, ?_⟩
  · refine List.Pairwise.filterMap _ ?_ hc
    intro p q hpq b hb b' hb'
    by_cases hp2 : 0 < p.2
    · rw [if_pos hp2] at hb
      by_cases hq2 : 0 < q.2
      · rw [if_pos hq2] at hb'
        obtain rfl : scaleProgress p.1 p.2 = b := by simpa using hb
        obtain rfl : scaleProgress q.1 q.2 = b' := by simpa using hb'
        rw [hpq.2]
        exact scaleProgress_mono hpq.1
      · rw [if_neg hq2] at hb'
        cases hb'
    · rw [if_neg hp2] at hb
      cases hb
  · rcases Bool.dichotomy a.success with hs | hs <;> rw [hs] <;> decide
  · intro x hx y hy
    have hx80 := (scaled_mem_bounds a h x hx).2
    rcases Bool.dichotomy a.success with hs | hs <;> rw [hs] at hy
    · simp at hy
    · rcases List.mem_cons.mp hy with rfl | hy
      · linarith
      · rcases List.mem_cons.mp hy with rfl | hy
        · linarith
        · simp at hy

/-- Example run for the C6 counterexample: the primary attempt fully
downloads the scene file (progress reaches `80`) and then fails to parse;
the first fallback candidate is half-way through when it succeeds. -/
def cexAttempts : List Attempt :=
  [Attempt.mk [(1, 1)] false, Attempt.mk [(1, 2)] true]

/-- C6 counterexample.  The claim that the delivered progress values are
monotonically non-decreasing within one load, including across the fallback,
is false: an attempt that downloads fully (progress `80`) and then fails
hands over to a fallback candidate whose first progress event drops the
percentage back (here to `50`). -/
theorem progress_claim_cex :
    (∀ a ∈ cexAttempts, ∀ p ∈ a.events, p.1 ≤ p.2) ∧
      ¬ List.Pairwise (· ≤ ·) (loadProgressTrace cexAttempts) := by
  constructor
  · decide
  · have h1 : scaleProgress 1 1 = 80 := by unfold scaleProgress; norm_num
    have h2 : scaleProgress 1 2 = 50 := by unfold scaleProgress; norm_num
    have htrace : loadProgressTrace cexAttempts = [0, 10, 20, 80, 50, 80, 100] := by
      simp [loadProgressTrace, cexAttempts, attemptsTrace, attemptTrace, h1, h2]
    rw [htrace]
    decide

/-- C6, amended.  Every delivered progress value is an integer in `0–100`
(assuming each event reports `loaded ≤ total`), and the sequence is
non-decreasing *within* each URL attempt (whose events have non-decreasing
`loaded` and a fixed `total`), including the final jump to `80` and `100`
on success; monotonicity across a failed attempt's hand-off to the next
fallback candidate does not hold. -/
theorem progress_amended (attempts : List Attempt)
    (h : ∀ a ∈ attempts, ∀ p ∈ a.events, p.1 ≤ p.2) :
    (∀ v ∈ loadProgressTrace attempts, 0 ≤ v ∧ v ≤ 100) ∧
      ∀ a ∈ attempts,
        List.Pairwise (fun p q : ℕ × ℕ => p.1 ≤ q.1 ∧ p.2 = q.2) a.events →
          List.Pairwise (· ≤ ·) (attemptTrace a) := by
  constructor
  · intro v hv
    unfold loadProgressTrace at hv
    rcases List.mem_cons.mp hv with rfl | hv
    · norm_num
    · rcases List.mem_cons.mp hv with rfl | hv
      · norm_num
      · rcases List.mem_cons.mp hv with rfl | hv
        · norm_num
        · have := attemptsTrace_bounds attempts h v hv
          exact ⟨by linarith [this.1], this.2⟩
  · intro a ha hc
    exact attemptTrace_pairwise a (h a ha) hc

/-- Attempt list for the C6 witness: one attempt with three well-formed
progress events that succeeds. -/
def wAttempts : List Attempt := [Attempt.mk [(0, 2), (1, 2), (2, 2)] true]

/-- Witness for C6 (amended), at a concrete single-attempt load. -/
theorem progress_amended_witness :
    (∀ a ∈ wAttempts, ∀ p ∈ a.events, p.1 ≤ p.2) ∧
      ((∀ v ∈ loadProgressTrace wAttempts, 0 ≤ v ∧ v ≤ 100) ∧
        ∀ a ∈ wAttempts,
          List.Pairwise (fun p q : ℕ × ℕ => p.1 ≤ q.1 ∧ p.2 = q.2) a.events →
            List.Pairwise (· ≤ ·) (attemptTrace a)) :=
  ⟨by decide, progress_amended wAttempts (by decide)⟩

end WrapStudio
